import Mathlib

/-!
Verification of the booking admission engine in `src/back/server.ts`
(Hampilabs/Sohraa).

The engine compares ISO calendar dates (`YYYY-MM-DD`) as strings; for that
format lexicographic comparison coincides with chronological comparison, so
dates are modelled by an arbitrary decidable linear order `D` (witnesses
instantiate `D := Nat`).  Identifiers, statuses and currencies are strings,
compared only for equality.  Rows are modelled as the tuples the code reads
and writes.  (Remark: the shipped migration `001_init.sql` does not define
the `bookings.total_amount`, `bookings.currency` and `customers.metadata`
columns that the insert statements reference; the model gives the storage
layer the columns the code writes, and the opaque `metadata` passthrough,
which no claim mentions, is omitted from the customer row.)

Postgres `SELECT pg_advisory_xact_lock(hashtext($1)::bigint)` serializes the
check-then-write region per lock key; the key computation `hashtext` (Jenkins
lookup3 as shipped in Postgres, little-endian platform) is modelled
byte-for-byte so that statements about the lock granularity are about the
actual key the code locks on.
-/

namespace Sohraa

/-- JS truthiness test for an optional string field: `!x` is true when the
field is absent (`undefined`/`null`) or the empty string. -/
def falsyStr (o : Option String) : Bool := o.getD "" == ""

/-- JS truthiness for the optional `hold` flag: absent means `false`. -/
def jsBool (o : Option Bool) : Bool := o.getD false

/-- JS `x || null` applied to an optional numeric field: `0` is falsy, so a
supplied amount of `0` becomes `null`. -/
def jsNumberOrNull (o : Option Int) : Option Int :=
  match o with
  | some v => if v == 0 then none else some v
  | none => none

/-- JS `x || dflt` applied to an optional string field: absent or empty
yields the default. -/
def jsStringOrDefault (o : Option String) (dflt : String) : String :=
  match o with
  | some s => if s == "" then dflt else s
  | none => dflt

/-- `datesOverlap` from `server.ts` (lines 14-17): half-open interval
intersection test, `(startA < endB) && (endA > startB)`. -/
def datesOverlap {D : Type} [LinearOrder D] (startA endA startB endB : D) : Bool :=
  (decide (startA < endB)) && (decide (endA > startB))

/-- A row of the `rooms` table as selected by the handlers. -/
structure Room where
  id : String
  property_id : String
  room_number : String
  room_type : String
deriving DecidableEq, Repr

/-- A row of the `customers` table as written by the admission insert. -/
structure Customer where
  id : String
  first_name : String
  last_name : String
  email : String
  phone : String
deriving DecidableEq, Repr

/-- A row of the `bookings` table as written by the admission insert. -/
structure Booking (D : Type) where
  id : String
  property_id : String
  room_id : String
  customer_id : String
  status : String
  start_date : D
  end_date : D
  total_amount : Option Int
  currency : String
deriving DecidableEq, Repr

/-- The persisted state the engine reads and writes. -/
structure DB (D : Type) where
  rooms : List Room
  customers : List Customer
  bookings : List (Booking D)
deriving DecidableEq, Repr

/-- The status filter `status IN (confirmed, hold)` common to the
availability query and the admission conflict check. -/
def activeStatus (s : String) : Bool := s == "confirmed" || s == "hold"

/-- The SQL window filter `NOT (end_date <= $2 OR start_date >= $3)` common
to the availability query (lines 45-51) and the admission conflict check
(lines 92-98), applied to a stored interval `[s, e)` and a requested window
`[qfrom, qto)`. -/
def sqlOverlaps {D : Type} [LinearOrder D] (s e qfrom qto : D) : Bool :=
  !((decide (e ≤ qfrom)) || (decide (s ≥ qto)))

/-- Query string of `GET /availability`.  The handler checks each parameter
with JS truthiness; an empty-string date is not a date, so absent and empty
date parameters are folded into `none`, while the property id keeps the
string truthiness test. -/
structure AvailabilityQuery (D : Type) where
  propertyId : Option String
  fromDate : Option D
  toDate : Option D
deriving DecidableEq, Repr

/-- The only failure the availability handler produces (HTTP 400,
`propertyId, from, to required`). -/
inductive AvailabilityError where
  | missingParams
deriving DecidableEq, Repr

/-- Success payload of `GET /availability`: `{ from, to, available }`. -/
structure AvailabilityOk (D : Type) where
  fromDate : D
  toDate : D
  available : List Room
deriving DecidableEq, Repr

/-- `GET /availability` handler (`server.ts` lines 33-59): after the presence
check it selects the rooms of the property, selects the active bookings of
the property whose stored interval meets the SQL window filter, marks their
room ids blocked, and returns the unblocked rooms. -/
def availability {D : Type} [LinearOrder D] (db : DB D) (q : AvailabilityQuery D) :
    Except AvailabilityError (AvailabilityOk D) :=
  match q.fromDate, q.toDate with
  | some f, some t =>
    if falsyStr q.propertyId then .error .missingParams
    else
      let propertyId := q.propertyId.getD ""
      let rooms := db.rooms.filter (fun r => r.property_id == propertyId)
      let blocked := db.bookings.filter (fun b =>
        b.property_id == propertyId
          && sqlOverlaps b.start_date b.end_date f t
          && activeStatus b.status)
      let available := rooms.filter (fun r => !(blocked.any (fun b => b.room_id == r.id)))
      .ok ⟨f, t, available⟩
  | _, _ => .error .missingParams

/-- Inline customer object of the `POST /bookings` body. -/
structure CustomerInput where
  id : Option String
  first_name : String
  last_name : String
  email : String
  phone : String
deriving DecidableEq, Repr

/-- Body of `POST /bookings`.  Date fields are `none` when absent or empty
(JS truthiness on strings); `hold`, `total_amount` and `currency` are
optional. -/
structure BookingRequest (D : Type) where
  property_id : Option String
  room_id : Option String
  customer : Option CustomerInput
  start_date : Option D
  end_date : Option D
  hold : Option Bool
  total_amount : Option Int
  currency : Option String
deriving DecidableEq, Repr

/-- Failure outcomes of the admission handler: HTTP 400 missing fields,
HTTP 400 invalid range, HTTP 409 conflict, HTTP 500 storage error. -/
inductive BookingError where
  | missingFields
  | invalidRange
  | roomUnavailable
  | storageFailure
deriving DecidableEq, Repr

/-- Success payload of `POST /bookings`: `{ booking_id, status }`. -/
structure BookingOk where
  booking_id : String
  status : String
deriving DecidableEq, Repr

/-- The admission conflict query (`server.ts` lines 92-98): active bookings
of the room whose stored interval meets the SQL window filter. -/
def conflictQuery {D : Type} [LinearOrder D] (bookings : List (Booking D))
    (room_id : String) (s e : D) : List (Booking D) :=
  bookings.filter (fun b =>
    b.room_id == room_id
      && sqlOverlaps b.start_date b.end_date s e
      && activeStatus b.status)

/-- The customer row written by the admission insert (`server.ts` lines
104-113) when no customer id was supplied, with `newCustomerId` the drawn
`uuidv4()`.  The code also passes an opaque `metadata` value that no claim
mentions (and that the shipped schema has no column for); it is omitted. -/
def insertedCustomer (cust : CustomerInput) (newCustomerId : String) : Customer :=
  ⟨newCustomerId, cust.first_name, cust.last_name, cust.email, cust.phone⟩

/-- The booking row written by the admission insert (`server.ts` lines
115-122): status `hold` when the hold flag is truthy else `confirmed`,
`total_amount || null`, `currency || USD-default`. -/
def committedBooking {D : Type} (req : BookingRequest D) (cust : CustomerInput)
    (newCustomerId newBookingId : String) (s e : D) : Booking D :=
  ⟨newBookingId, req.property_id.getD "", req.room_id.getD "",
    if falsyStr cust.id then newCustomerId else cust.id.getD "",
    if jsBool req.hold then "hold" else "confirmed", s, e,
    jsNumberOrNull req.total_amount, jsStringOrDefault req.currency "USD"⟩

/-- `POST /bookings` handler (`server.ts` lines 71-133).  Validation happens
before the transaction; inside the transaction the advisory lock on
`hashtext(room_id)::bigint` serializes the conflict check and the writes per
lock key.  `newCustomerId` and `newBookingId` stand for the drawn `uuidv4()`
values; `storageFails` marks a run whose write queries raise, in which case
the `catch` branch issues `ROLLBACK` and Postgres atomicity restores the
pre-transaction state.  On a detected conflict the handler issues `ROLLBACK`
and returns HTTP 409 with no partial writes. -/
def postBookings {D : Type} [LinearOrder D] (db : DB D) (req : BookingRequest D)
    (newCustomerId newBookingId : String) (storageFails : Bool) :
    Except BookingError BookingOk × DB D :=
  match req.start_date, req.end_date, req.customer with
  | some s, some e, some cust =>
    if falsyStr req.property_id || falsyStr req.room_id then
      (.error .missingFields, db)
    else if !(decide (s < e)) then
      (.error .invalidRange, db)
    else
      let room_id := req.room_id.getD ""
      if (conflictQuery db.bookings room_id s e).length > 0 then
        (.error .roomUnavailable, db)
      else if storageFails then
        (.error .storageFailure, db)
      else
        (.ok ⟨newBookingId, if jsBool req.hold then "hold" else "confirmed"⟩,
         ⟨db.rooms,
          if falsyStr cust.id then db.customers ++ [insertedCustomer cust newCustomerId]
          else db.customers,
          db.bookings ++ [committedBooking req cust newCustomerId newBookingId s e]⟩)
  | _, _, _ => (.error .missingFields, db)

/-- A single admission attempt: the request body together with the fresh
`uuidv4()` identities the handler would draw for it. -/
structure Admission (D : Type) where
  req : BookingRequest D
  newCustomerId : String
  newBookingId : String
deriving DecidableEq, Repr

/-- Sequential execution of a batch of admission transactions.  Admissions
against the same advisory lock key are serialized by
`pg_advisory_xact_lock`, and the conflict check and writes happen entirely
inside the locked transaction, so the observable outcome of same-room
concurrent admissions is that of running them one after the other in the
order the lock was granted; this function runs a batch in list order. -/
def runAdmissions {D : Type} [LinearOrder D] (db : DB D) :
    List (Admission D) → List (Except BookingError BookingOk) × DB D
  | [] => ([], db)
  | a :: rest =>
    let r := postBookings db a.req a.newCustomerId a.newBookingId false
    let rs := runAdmissions r.2 rest
    (r.1 :: rs.1, rs.2)

/-- Number of committed outcomes in a batch of admission results. -/
def countOk (rs : List (Except BookingError BookingOk)) : Nat :=
  (rs.filter (fun r => r.isOk)).length

/-- Number of outcomes equal to a given error in a batch of admission
results. -/
def countErr (err : BookingError) (rs : List (Except BookingError BookingOk)) : Nat :=
  (rs.filter (fun r => match r with | .error e2 => e2 == err | .ok _ => false)).length

/-- A well-formed admission request against room `rid`: all required fields
present and truthy, and a strictly increasing window. -/
def GoodReq {D : Type} [LinearOrder D] (rid : String) (a : Admission D) : Prop :=
  a.req.room_id = some rid ∧ falsyStr a.req.property_id = false ∧
    a.req.customer.isSome = true ∧
    ∃ s e, a.req.start_date = some s ∧ a.req.end_date = some e ∧ s < e

/-- The windows of two admissions overlap (vacuous when a window is
absent). -/
def AdmWindowsOverlap {D : Type} [LinearOrder D] (a b : Admission D) : Prop :=
  ∀ s1 e1 s2 e2, a.req.start_date = some s1 → a.req.end_date = some e1 →
    b.req.start_date = some s2 → b.req.end_date = some e2 →
    datesOverlap s1 e1 s2 e2 = true

/-- The windows of two admissions are disjoint (vacuous when a window is
absent). -/
def AdmWindowsDisjoint {D : Type} [LinearOrder D] (a b : Admission D) : Prop :=
  ∀ s1 e1 s2 e2, a.req.start_date = some s1 → a.req.end_date = some e1 →
    b.req.start_date = some s2 → b.req.end_date = some e2 →
    datesOverlap s1 e1 s2 e2 = false

/-- The stored bookings raise no conflict against the window of admission
`a` on room `rid`. -/
def NoConflictWith {D : Type} [LinearOrder D] (db : DB D) (rid : String)
    (a : Admission D) : Prop :=
  ∀ s e, a.req.start_date = some s → a.req.end_date = some e →
    conflictQuery db.bookings rid s e = []

/-- The active (`hold` or `confirmed`) bookings stored for a room. -/
def activeRoomBookings {D : Type} [LinearOrder D] (db : DB D) (room : String) :
    List (Booking D) :=
  db.bookings.filter (fun b => activeStatus b.status && b.room_id == room)

/-- The data-model invariant: the active bookings of a room are pairwise
non-overlapping. -/
def RoomInvariant {D : Type} [LinearOrder D] (db : DB D) (room : String) : Prop :=
  List.Pairwise
    (fun b1 b2 => datesOverlap b1.start_date b1.end_date b2.start_date b2.end_date = false)
    (activeRoomBookings db room)

/-! ### The advisory lock key

`server.ts` line 89 locks `pg_advisory_xact_lock(hashtext($1)::bigint)` with
the room id as argument.  Postgres `hashtext` applies `hash_any` (the Jenkins
lookup3 hash as shipped in `src/common/hashfn.c`) to the UTF-8 bytes of the
text and returns a signed 32-bit integer; the `::bigint` cast sign-extends
it.  The model below follows the little-endian code path, which is the one
taken on the platforms the server targets.  All 32-bit words are `Nat`
values below `2 ^ 32`. -/

/-- Two to the thirty-second power, the modulus of all 32-bit arithmetic. -/
def M32 : Nat := 4294967296

/-- 32-bit left rotation of `x` (with `x < M32`) by `k` (with `0 < k < 32`). -/
def rot32 (x k : Nat) : Nat := ((x <<< k) ||| (x >>> (32 - k))) % M32

/-- 32-bit wrapping addition. -/
def add32 (a b : Nat) : Nat := (a + b) % M32

/-- 32-bit wrapping subtraction (for `a b < M32`). -/
def sub32 (a b : Nat) : Nat := (a + M32 - b % M32) % M32

/-- The lookup3 `mix` round on the internal state `(a, b, c)`. -/
def mix3 : Nat × Nat × Nat → Nat × Nat × Nat :=
  fun (a0, b0, c0) =>
    let a := sub32 a0 c0; let a := a ^^^ rot32 c0 4;  let c := add32 c0 b0
    let b := sub32 b0 a;  let b := b ^^^ rot32 a 6;   let a := add32 a c
    let c := sub32 c b;   let c := c ^^^ rot32 b 8;   let b := add32 b a
    let a := sub32 a c;   let a := a ^^^ rot32 c 16;  let c := add32 c b
    let b := sub32 b a;   let b := b ^^^ rot32 a 19;  let a := add32 a c
    let c := sub32 c b;   let c := c ^^^ rot32 b 4;   let b := add32 b a
    (a, b, c)

/-- The lookup3 `final` round on the internal state `(a, b, c)`. -/
def final3 : Nat × Nat × Nat → Nat × Nat × Nat :=
  fun (a0, b0, c0) =>
    let c := c0 ^^^ b0; let c := sub32 c (rot32 b0 14)
    let a := a0 ^^^ c;  let a := sub32 a (rot32 c 11)
    let b := b0 ^^^ a;  let b := sub32 b (rot32 a 25)
    let c := c ^^^ b;   let c := sub32 c (rot32 b 16)
    let a := a ^^^ c;   let a := sub32 a (rot32 c 4)
    let b := b ^^^ a;   let b := sub32 b (rot32 a 14)
    let c := c ^^^ b;   let c := sub32 c (rot32 b 24)
    (a, b, c)

/-- A 32-bit word read little-endian from four bytes. -/
def le32 (b0 b1 b2 b3 : Nat) : Nat := b0 + b1 * 256 + b2 * 65536 + b3 * 16777216

/-- The tail switch of `hash_any` (little-endian path) on the at most eleven
bytes left after the 12-byte blocks. -/
def hashTail : Nat × Nat × Nat → List Nat → Nat × Nat × Nat
  | (a, b, c), [] => (a, b, c)
  | (a, b, c), [k0] => (add32 a k0, b, c)
  | (a, b, c), [k0, k1] => (add32 a (k0 + k1 * 256), b, c)
  | (a, b, c), [k0, k1, k2] => (add32 a (k0 + k1 * 256 + k2 * 65536), b, c)
  | (a, b, c), [k0, k1, k2, k3] => (add32 a (le32 k0 k1 k2 k3), b, c)
  | (a, b, c), [k0, k1, k2, k3, k4] =>
      (add32 a (le32 k0 k1 k2 k3), add32 b k4, c)
  | (a, b, c), [k0, k1, k2, k3, k4, k5] =>
      (add32 a (le32 k0 k1 k2 k3), add32 b (k4 + k5 * 256), c)
  | (a, b, c), [k0, k1, k2, k3, k4, k5, k6] =>
      (add32 a (le32 k0 k1 k2 k3), add32 b (k4 + k5 * 256 + k6 * 65536), c)
  | (a, b, c), [k0, k1, k2, k3, k4, k5, k6, k7] =>
      (add32 a (le32 k0 k1 k2 k3), add32 b (le32 k4 k5 k6 k7), c)
  | (a, b, c), [k0, k1, k2, k3, k4, k5, k6, k7, k8] =>
      (add32 a (le32 k0 k1 k2 k3), add32 b (le32 k4 k5 k6 k7), add32 c (k8 * 256))
  | (a, b, c), [k0, k1, k2, k3, k4, k5, k6, k7, k8, k9] =>
      (add32 a (le32 k0 k1 k2 k3), add32 b (le32 k4 k5 k6 k7),
        add32 c (k8 * 256 + k9 * 65536))
  | (a, b, c), [k0, k1, k2, k3, k4, k5, k6, k7, k8, k9, k10] =>
      (add32 a (le32 k0 k1 k2 k3), add32 b (le32 k4 k5 k6 k7),
        add32 c (k8 * 256 + k9 * 65536 + k10 * 16777216))
  | acc, _ => acc

/-- The main loop of `hash_any`: absorb and mix 12-byte blocks while at least
twelve bytes remain, then apply the tail switch. -/
def hashBlocks : Nat × Nat × Nat → List Nat → Nat × Nat × Nat
  | (a, b, c), k0 :: k1 :: k2 :: k3 :: k4 :: k5 :: k6 :: k7 :: k8 :: k9 :: k10 :: k11 :: rest =>
      hashBlocks
        (mix3 (add32 a (le32 k0 k1 k2 k3), add32 b (le32 k4 k5 k6 k7),
          add32 c (le32 k8 k9 k10 k11))) rest
  | acc, rest => hashTail acc rest

/-- UTF-8 bytes of a string; the ids fed to the lock are ASCII, for which the
code points are the bytes. -/
def strBytes (s : String) : List Nat := s.data.map Char.toNat

/-- Postgres `hashtext`: initialize `a = b = c = 0x9e3779b9 + len + 3923095`,
run the block loop and the tail, apply `final`, return `c`. -/
def hashtext (s : String) : Nat :=
  let k := strBytes s
  let init := (2654435769 + k.length + 3923095) % M32
  (final3 (hashBlocks (init, init, init) k)).2.2

/-- The `::bigint` cast of the signed 32-bit `hashtext` result. -/
def pgInt4AsInt8 (c : Nat) : Int :=
  if c < 2147483648 then (c : Int) else (c : Int) - 4294967296

/-- The advisory lock key the admission transaction serializes on:
`hashtext(room_id)::bigint`. -/
def lockKey (room_id : String) : Int := pgInt4AsInt8 (hashtext room_id)


/-- A concrete admission on room `r1` with window `[10, 20)`, used by the
concurrency witness. -/
def wAdm1 : Admission Nat :=
  ⟨⟨some "p1", some "r1",
    some ⟨none, "Ada", "Lovelace", "ada@example.com", "555-0100"⟩,
    some 10, some 20, none, none, none⟩, "cust-a", "book-a"⟩

/-- A concrete admission on room `r1` with window `[15, 25)`, overlapping
the window of `wAdm1`, used by the concurrency witness. -/
def wAdm2 : Admission Nat :=
  ⟨⟨some "p1", some "r1",
    some ⟨none, "Grace", "Hopper", "grace@example.com", "555-0101"⟩,
    some 15, some 25, some true, none, none⟩, "cust-b", "book-b"⟩

/-! ### Helper lemmas about the handlers -/

/-- The SQL filter and the pure predicate decide the same relation. -/
theorem sqlOverlaps_eq_datesOverlap {D : Type} [LinearOrder D] (s e qfrom qto : D) :
    sqlOverlaps s e qfrom qto = datesOverlap s e qfrom qto := by
  simp only [sqlOverlaps, datesOverlap, Bool.not_or, Bool.and_comm, ← decide_not, not_le]

/-- The overlap predicate is symmetric in its two intervals. -/
theorem datesOverlap_comm {D : Type} [LinearOrder D] (a1 a2 b1 b2 : D) :
    datesOverlap a1 a2 b1 b2 = datesOverlap b1 b2 a1 a2 := by
  simp only [datesOverlap, Bool.and_comm]

theorem falsyStr_some_iff (x : String) : falsyStr (some x) = false ↔ x ≠ "" := by
  simp [falsyStr]

theorem conflictQuery_eq_nil_iff {D : Type} [LinearOrder D] (bs : List (Booking D))
    (rid : String) (s e : D) :
    conflictQuery bs rid s e = [] ↔
      ∀ b ∈ bs, b.room_id = rid → activeStatus b.status = true →
        datesOverlap b.start_date b.end_date s e = false := by
  simp only [conflictQuery, List.filter_eq_nil_iff, Bool.and_eq_true, beq_iff_eq,
    sqlOverlaps_eq_datesOverlap, not_and, Bool.not_eq_true]
  constructor
  · intro h b hb hr ha
    by_cases ho : datesOverlap b.start_date b.end_date s e = true
    · have hfalse := h b hb ⟨hr, ho⟩
      rw [ha] at hfalse
      cases hfalse
    · simpa [Bool.not_eq_true] using ho
  · rintro h b hb ⟨hr, ho⟩
    by_cases ha : activeStatus b.status = true
    · rw [h b hb hr ha] at ho
      cases ho
    · simpa [Bool.not_eq_true] using ha

theorem conflictQuery_ne_nil_iff {D : Type} [LinearOrder D] (bs : List (Booking D))
    (rid : String) (s e : D) :
    conflictQuery bs rid s e ≠ [] ↔
      ∃ b ∈ bs, b.room_id = rid ∧ activeStatus b.status = true ∧
        datesOverlap b.start_date b.end_date s e = true := by
  rw [Ne, conflictQuery_eq_nil_iff]
  push_neg
  simp only [Bool.not_eq_false]

theorem postBookings_commit {D : Type} [LinearOrder D] (db : DB D)
    (req : BookingRequest D) (cid bid : String) (s e : D) (cust : CustomerInput)
    (hs : req.start_date = some s) (he : req.end_date = some e)
    (hc : req.customer = some cust)
    (hp : falsyStr req.property_id = false) (hr : falsyStr req.room_id = false)
    (hse : s < e)
    (hcf : conflictQuery db.bookings (req.room_id.getD "") s e = []) :
    postBookings db req cid bid false =
      (.ok ⟨bid, if jsBool req.hold then "hold" else "confirmed"⟩,
       ⟨db.rooms,
        if falsyStr cust.id then db.customers ++ [insertedCustomer cust cid]
        else db.customers,
        db.bookings ++ [committedBooking req cust cid bid s e]⟩) := by
  simp [postBookings, hs, he, hc, hp, hr, hse, hcf]

theorem postBookings_reject {D : Type} [LinearOrder D] (db : DB D)
    (req : BookingRequest D) (cid bid : String) (sf : Bool) (s e : D)
    (cust : CustomerInput)
    (hs : req.start_date = some s) (he : req.end_date = some e)
    (hc : req.customer = some cust)
    (hp : falsyStr req.property_id = false) (hr : falsyStr req.room_id = false)
    (hse : s < e)
    (hcf : conflictQuery db.bookings (req.room_id.getD "") s e ≠ []) :
    postBookings db req cid bid sf = (.error .roomUnavailable, db) := by
  have hlen : 0 < (conflictQuery db.bookings (req.room_id.getD "") s e).length :=
    List.length_pos.mpr hcf
  simp [postBookings, hs, he, hc, hp, hr, hse, hlen]

theorem postBookings_storage {D : Type} [LinearOrder D] (db : DB D)
    (req : BookingRequest D) (cid bid : String) (s e : D) (cust : CustomerInput)
    (hs : req.start_date = some s) (he : req.end_date = some e)
    (hc : req.customer = some cust)
    (hp : falsyStr req.property_id = false) (hr : falsyStr req.room_id = false)
    (hse : s < e)
    (hcf : conflictQuery db.bookings (req.room_id.getD "") s e = []) :
    postBookings db req cid bid true = (.error .storageFailure, db) := by
  simp [postBookings, hs, he, hc, hp, hr, hse, hcf]

theorem postBookings_ok_cases {D : Type} [LinearOrder D] (db : DB D)
    (req : BookingRequest D) (cid bid : String) (sf : Bool) (r : BookingOk)
    (h : (postBookings db req cid bid sf).1 = .ok r) :
    ∃ s e cust, req.start_date = some s ∧ req.end_date = some e ∧
      req.customer = some cust ∧
      falsyStr req.property_id = false ∧ falsyStr req.room_id = false ∧ s < e ∧
      sf = false ∧
      conflictQuery db.bookings (req.room_id.getD "") s e = [] ∧
      r = ⟨bid, if jsBool req.hold then "hold" else "confirmed"⟩ ∧
      (postBookings db req cid bid sf).2 =
        ⟨db.rooms,
         if falsyStr cust.id then db.customers ++ [insertedCustomer cust cid]
         else db.customers,
         db.bookings ++ [committedBooking req cust cid bid s e]⟩ := by
  cases hs : req.start_date with
  | none => exfalso; simp [postBookings, hs] at h
  | some s =>
    cases he : req.end_date with
    | none => exfalso; simp [postBookings, hs, he] at h
    | some e =>
      cases hc : req.customer with
      | none => exfalso; simp [postBookings, hs, he, hc] at h
      | some cust =>
        by_cases h1 : (falsyStr req.property_id || falsyStr req.room_id) = true
        · exfalso; simp [postBookings, hs, he, hc, h1] at h
        · have hp : falsyStr req.property_id = false := by
            rcases Bool.or_eq_true_iff.not.mp h1 |> not_or.mp with ⟨hp1, _⟩
            exact Bool.not_eq_true _ |>.mp hp1
          have hr : falsyStr req.room_id = false := by
            rcases Bool.or_eq_true_iff.not.mp h1 |> not_or.mp with ⟨_, hr1⟩
            exact Bool.not_eq_true _ |>.mp hr1
          by_cases h2 : s < e
          · by_cases h3 :
              0 < (conflictQuery db.bookings (req.room_id.getD "") s e).length
            · exfalso; simp [postBookings, hs, he, hc, h1, h2, h3] at h
            · have hcf : conflictQuery db.bookings (req.room_id.getD "") s e = [] := by
                rw [← List.length_eq_zero]
                omega
              cases sf with
              | true => exfalso; simp [postBookings, hs, he, hc, h1, h2, h3] at h
              | false =>
                refine ⟨s, e, cust, rfl, rfl, rfl, hp, hr, h2, rfl, hcf, ?_, ?_⟩
                · have hcommit :=
                    postBookings_commit db req cid bid s e cust hs he hc hp hr h2 hcf
                  rw [hcommit] at h
                  exact ((Except.ok.injEq _ _).mp h).symm
                · have hcommit :=
                    postBookings_commit db req cid bid s e cust hs he hc hp hr h2 hcf
                  rw [hcommit]
          · exfalso; simp [postBookings, hs, he, hc, h1, h2] at h

theorem conflictQuery_append {D : Type} [LinearOrder D] (bs1 bs2 : List (Booking D))
    (rid : String) (s e : D) :
    conflictQuery (bs1 ++ bs2) rid s e =
      conflictQuery bs1 rid s e ++ conflictQuery bs2 rid s e := by
  simp [conflictQuery, List.filter_append]

theorem activeStatus_committedBooking {D : Type} (req : BookingRequest D)
    (cust : CustomerInput) (cid bid : String) (s e : D) :
    activeStatus (committedBooking req cust cid bid s e).status = true := by
  cases h : jsBool req.hold <;> simp [committedBooking, activeStatus, h]

theorem availability_eq_ok {D : Type} [LinearOrder D] (db : DB D)
    (q : AvailabilityQuery D) (pid : String) (f t : D)
    (hp : q.propertyId = some pid) (hf : q.fromDate = some f) (ht : q.toDate = some t)
    (hpne : pid ≠ "") :
    availability db q = .ok ⟨f, t,
      (db.rooms.filter (fun r => r.property_id == pid)).filter
        (fun r => !((db.bookings.filter (fun b =>
            b.property_id == pid
              && sqlOverlaps b.start_date b.end_date f t
              && activeStatus b.status)).any (fun b => b.room_id == r.id)))⟩ := by
  have hfalsy : falsyStr (some pid) = false := (falsyStr_some_iff pid).mpr hpne
  simp [availability, hf, ht, hp, hfalsy]

theorem countOk_error_map {α : Type} (err : BookingError) (l : List α) :
    countOk (l.map (fun _ => (.error err : Except BookingError BookingOk))) = 0 := by
  unfold countOk
  rw [List.length_eq_zero]
  apply List.filter_eq_nil_iff.mpr
  intro r hr
  rcases List.mem_map.mp hr with ⟨a, _, rfl⟩
  intro hfalse
  exact Bool.false_ne_true (Eq.trans (Eq.symm (rfl :
    (Except.error err : Except BookingError BookingOk).isOk = false)) hfalse)

theorem countErr_error_map {α : Type} (err : BookingError) (l : List α) :
    countErr err (l.map (fun _ => (.error err : Except BookingError BookingOk))) =
      l.length := by
  induction l with
  | nil => rfl
  | cons a l ih => simp [countErr, List.filter]

theorem postBookings_error_state {D : Type} [LinearOrder D] (db : DB D)
    (req : BookingRequest D) (cid bid : String) (sf : Bool) (err : BookingError)
    (h : (postBookings db req cid bid sf).1 = .error err) :
    (postBookings db req cid bid sf).2 = db := by
  cases hs : req.start_date with
  | none => simp [postBookings, hs]
  | some s =>
    cases he : req.end_date with
    | none => simp [postBookings, hs, he]
    | some e =>
      cases hc : req.customer with
      | none => simp [postBookings, hs, he, hc]
      | some cust =>
        by_cases h1 : falsyStr req.property_id || falsyStr req.room_id
        · simp [postBookings, hs, he, hc, h1]
        · by_cases h2 : s < e
          · by_cases h3 :
              0 < (conflictQuery db.bookings (req.room_id.getD "") s e).length
            · simp [postBookings, hs, he, hc, h1, h2, h3]
            · cases sf with
              | true => simp [postBookings, hs, he, hc, h1, h2, h3]
              | false =>
                exfalso
                simp [postBookings, hs, he, hc, h1, h2, h3] at h
          · simp [postBookings, hs, he, hc, h1, h2]

theorem runAdmissions_cons {D : Type} [LinearOrder D] (db : DB D) (a : Admission D)
    (rest : List (Admission D)) :
    runAdmissions db (a :: rest) =
      ((postBookings db a.req a.newCustomerId a.newBookingId false).1 ::
        (runAdmissions (postBookings db a.req a.newCustomerId a.newBookingId false).2
          rest).1,
       (runAdmissions (postBookings db a.req a.newCustomerId a.newBookingId false).2
          rest).2) := rfl

theorem countOk_ok_cons (r : BookingOk) (rs : List (Except BookingError BookingOk)) :
    countOk (.ok r :: rs) = countOk rs + 1 := by
  simp [countOk, List.filter, Except.isOk, Except.toBool]

theorem countErr_ok_cons (err : BookingError) (r : BookingOk)
    (rs : List (Except BookingError BookingOk)) :
    countErr err (.ok r :: rs) = countErr err rs := by
  simp [countErr, List.filter]

theorem runAdmissions_all_blocked {D : Type} [LinearOrder D] (rid : String)
    (hridne : rid ≠ "") (As : List (Admission D)) :
    ∀ db : DB D, (∀ a ∈ As, GoodReq rid a) →
      (∀ a ∈ As, ∀ s e, a.req.start_date = some s → a.req.end_date = some e →
        conflictQuery db.bookings rid s e ≠ []) →
      runAdmissions db As = (As.map (fun _ => .error .roomUnavailable), db) := by
  induction As with
  | nil => intro db _ _; rfl
  | cons a rest ih =>
    intro db hg hb
    obtain ⟨hroom, hp, hcsome, s, e, hs, he, hse⟩ := hg a (List.mem_cons_self a rest)
    obtain ⟨cust, hc⟩ := Option.isSome_iff_exists.mp hcsome
    have hr : falsyStr a.req.room_id = false := by
      rw [hroom]; exact (falsyStr_some_iff rid).mpr hridne
    have hcq : conflictQuery db.bookings (a.req.room_id.getD "") s e ≠ [] := by
      rw [hroom]
      exact hb a (List.mem_cons_self a rest) s e hs he
    have hrej := postBookings_reject db a.req a.newCustomerId a.newBookingId false s e
      cust hs he hc hp hr hse hcq
    rw [runAdmissions_cons, hrej]
    rw [ih db (fun x hx => hg x (List.mem_cons_of_mem a hx))
      (fun x hx => hb x (List.mem_cons_of_mem a hx))]
    rfl

theorem runAdmissions_overlapping_results {D : Type} [LinearOrder D] (rid : String)
    (hridne : rid ≠ "") (db : DB D) (a : Admission D) (rest : List (Admission D))
    (hg : ∀ x ∈ a :: rest, GoodReq rid x)
    (hfree : ∀ x ∈ a :: rest, NoConflictWith db rid x)
    (hpair : (a :: rest).Pairwise AdmWindowsOverlap) :
    (runAdmissions db (a :: rest)).1 =
      .ok ⟨a.newBookingId, if jsBool a.req.hold then "hold" else "confirmed"⟩ ::
        rest.map (fun _ => .error .roomUnavailable) := by
  obtain ⟨hroom, hp, hcsome, s, e, hs, he, hse⟩ := hg a (List.mem_cons_self a rest)
  obtain ⟨cust, hc⟩ := Option.isSome_iff_exists.mp hcsome
  have hr : falsyStr a.req.room_id = false := by
    rw [hroom]; exact (falsyStr_some_iff rid).mpr hridne
  have hcf : conflictQuery db.bookings (a.req.room_id.getD "") s e = [] := by
    rw [hroom]
    exact hfree a (List.mem_cons_self a rest) s e hs he
  have hcommit := postBookings_commit db a.req a.newCustomerId a.newBookingId s e cust
    hs he hc hp hr hse hcf
  have hpair' := List.pairwise_cons.mp hpair
  have hblock : ∀ x ∈ rest, ∀ s2 e2, x.req.start_date = some s2 →
      x.req.end_date = some e2 →
      conflictQuery (db.bookings ++
          [committedBooking a.req cust a.newCustomerId a.newBookingId s e])
        rid s2 e2 ≠ [] := by
    intro x hx s2 e2 hs2 he2
    apply (conflictQuery_ne_nil_iff _ _ _ _).mpr
    refine ⟨committedBooking a.req cust a.newCustomerId a.newBookingId s e,
      List.mem_append_right _ (List.mem_singleton.mpr rfl), ?_, ?_, ?_⟩
    · simp [committedBooking, hroom]
    · exact activeStatus_committedBooking _ _ _ _ _ _
    · exact hpair'.1 x hx s e s2 e2 hs he hs2 he2
  have hall := runAdmissions_all_blocked rid hridne rest
    (⟨db.rooms,
      if falsyStr cust.id then db.customers ++ [insertedCustomer cust a.newCustomerId]
      else db.customers,
      db.bookings ++ [committedBooking a.req cust a.newCustomerId a.newBookingId s e]⟩ :
        DB D)
    (fun x hx => hg x (List.mem_cons_of_mem a hx)) hblock
  rw [runAdmissions_cons, hcommit]
  dsimp only
  rw [hall]

theorem runAdmissions_disjoint_all_ok {D : Type} [LinearOrder D] (rid : String)
    (hridne : rid ≠ "") (As : List (Admission D)) :
    ∀ db : DB D, (∀ a ∈ As, GoodReq rid a) →
      (∀ a ∈ As, NoConflictWith db rid a) →
      As.Pairwise AdmWindowsDisjoint →
      countOk (runAdmissions db As).1 = As.length := by
  induction As with
  | nil => intro db _ _ _; rfl
  | cons a rest ih =>
    intro db hg hfree hpair
    obtain ⟨hroom, hp, hcsome, s, e, hs, he, hse⟩ := hg a (List.mem_cons_self a rest)
    obtain ⟨cust, hc⟩ := Option.isSome_iff_exists.mp hcsome
    have hr : falsyStr a.req.room_id = false := by
      rw [hroom]; exact (falsyStr_some_iff rid).mpr hridne
    have hcf : conflictQuery db.bookings (a.req.room_id.getD "") s e = [] := by
      rw [hroom]; exact hfree a (List.mem_cons_self a rest) s e hs he
    have hcommit := postBookings_commit db a.req a.newCustomerId a.newBookingId s e cust
      hs he hc hp hr hse hcf
    have hpair' := List.pairwise_cons.mp hpair
    have hfree' : ∀ x ∈ rest, NoConflictWith
        (⟨db.rooms,
          if falsyStr cust.id then db.customers ++ [insertedCustomer cust a.newCustomerId]
          else db.customers,
          db.bookings ++
            [committedBooking a.req cust a.newCustomerId a.newBookingId s e]⟩ : DB D)
        rid x := by
      intro x hx s2 e2 hs2 he2
      have hfx := hfree x (List.mem_cons_of_mem a hx) s2 e2 hs2 he2
      have hdisj := hpair'.1 x hx s e s2 e2 hs he hs2 he2
      show conflictQuery (db.bookings ++
        [committedBooking a.req cust a.newCustomerId a.newBookingId s e]) rid s2 e2 = []
      rw [conflictQuery_append, hfx]
      simp [conflictQuery, List.filter, sqlOverlaps_eq_datesOverlap, committedBooking,
        hdisj]
    have hrest := ih
      (⟨db.rooms,
        if falsyStr cust.id then db.customers ++ [insertedCustomer cust a.newCustomerId]
        else db.customers,
        db.bookings ++
          [committedBooking a.req cust a.newCustomerId a.newBookingId s e]⟩ : DB D)
      (fun x hx => hg x (List.mem_cons_of_mem a hx)) hfree' hpair'.2
    rw [runAdmissions_cons, hcommit]
    dsimp only
    rw [countOk_ok_cons, hrest]
    simp

/-! ### Claims -/

/-- C5, counterexample: the claim says any zero-length interval is
non-overlapping, but `datesOverlap` reports the zero-length interval
`A = [5, 5)` as overlapping `B = [1, 10)`, because `5 < 10 && 5 > 1`. -/
theorem C5_counterexample : datesOverlap (5 : Nat) 5 1 10 = true := by decide

/-- C5 (amended): `datesOverlap` returns true iff `a1 < b2` and `a2 > b1`,
and is a pure total function; touching intervals (`a2 = b1`) never overlap;
but a zero-length interval `[d, d)` overlaps `[b1, b2)` exactly when `d`
lies strictly inside, i.e. `b1 < d < b2`, not never. -/
theorem C5_overlap_contract {D : Type} [LinearOrder D] (a1 a2 b1 b2 : D) :
    (datesOverlap a1 a2 b1 b2 = true ↔ a1 < b2 ∧ a2 > b1) ∧
    (a2 = b1 → datesOverlap a1 a2 b1 b2 = false) ∧
    (∀ d : D, datesOverlap d d b1 b2 = true ↔ b1 < d ∧ d < b2) := by
  refine ⟨?_, ?_, ?_⟩
  · simp [datesOverlap]
  · intro h
    simp [datesOverlap, h]
  · intro d
    simp [datesOverlap]
    exact and_comm

/-- C5 witness: the amended contract applied to the touching pair `[1, 2)`,
`[2, 4)` over `Nat`. -/
theorem C5_overlap_contract_witness : datesOverlap (1 : Nat) 2 2 4 = false :=
  (C5_overlap_contract (1 : Nat) 2 2 4).2.1 rfl

/-- C6: the pure predicate and the SQL window filter used by the
availability query and the admission conflict check decide the same
relation: `datesOverlap sA eA sB eB` equals `NOT (eA <= sB OR sA >= eB)`,
the negated SQL non-overlap condition. -/
theorem C6_predicate_matches_sql {D : Type} [LinearOrder D] (sA eA sB eB : D) :
    datesOverlap sA eA sB eB = !((decide (eA ≤ sB)) || (decide (sA ≥ eB))) ∧
    sqlOverlaps sA eA sB eB = datesOverlap sA eA sB eB :=
  ⟨(sqlOverlaps_eq_datesOverlap sA eA sB eB).symm,
    sqlOverlaps_eq_datesOverlap sA eA sB eB⟩

/-- C4: on every failure path of the admission transaction (missing fields,
invalid range, conflict rejection, or storage failure) the stored state is
exactly unchanged, so no booking or customer row becomes visible; in
particular the active-booking set of the requested room is unchanged. -/
theorem C4_failure_no_residual_state {D : Type} [LinearOrder D] (db : DB D)
    (req : BookingRequest D) (cid bid : String) (sf : Bool) (err : BookingError)
    (h : (postBookings db req cid bid sf).1 = .error err) :
    (postBookings db req cid bid sf).2 = db ∧
    activeRoomBookings (postBookings db req cid bid sf).2 (req.room_id.getD "") =
      activeRoomBookings db (req.room_id.getD "") := by
  have hst := postBookings_error_state db req cid bid sf err h
  exact ⟨hst, by rw [hst]⟩

/-- C4 witness: a request with no customer object fails and leaves the empty
state unchanged. -/
theorem C4_failure_no_residual_state_witness :
    (postBookings (⟨[], [], []⟩ : DB Nat)
        ⟨some "p1", some "r1", none, some 1, some 2, none, none, none⟩
        "cust-1" "book-1" false).2 = (⟨[], [], []⟩ : DB Nat) :=
  (C4_failure_no_residual_state (⟨[], [], []⟩ : DB Nat)
    ⟨some "p1", some "r1", none, some 1, some 2, none, none, none⟩
    "cust-1" "book-1" false .missingFields rfl).1

/-- C3: for a request with all required fields present (truthy) and
`start_date < end_date`, the admission fails with `RoomUnavailable` iff some
stored booking for the requested room with status `hold` or `confirmed`
overlaps the requested window `[s, e)`; absent such a booking and absent a
storage failure it succeeds, returning the new booking id and status. -/
theorem C3_reject_iff_conflict {D : Type} [LinearOrder D] (db : DB D)
    (req : BookingRequest D) (cid bid : String) (sf : Bool) (s e : D)
    (cust : CustomerInput)
    (hs : req.start_date = some s) (he : req.end_date = some e)
    (hc : req.customer = some cust)
    (hp : falsyStr req.property_id = false) (hr : falsyStr req.room_id = false)
    (hse : s < e) :
    ((postBookings db req cid bid sf).1 = .error .roomUnavailable ↔
      ∃ b ∈ db.bookings, b.room_id = req.room_id.getD "" ∧
        activeStatus b.status = true ∧
        datesOverlap b.start_date b.end_date s e = true) ∧
    (sf = false →
      (¬ ∃ b ∈ db.bookings, b.room_id = req.room_id.getD "" ∧
          activeStatus b.status = true ∧
          datesOverlap b.start_date b.end_date s e = true) →
      (postBookings db req cid bid sf).1 =
        .ok ⟨bid, if jsBool req.hold then "hold" else "confirmed"⟩) := by
  constructor
  · constructor
    · intro hres
      by_contra hnot
      have hcf : conflictQuery db.bookings (req.room_id.getD "") s e = [] := by
        by_contra hne
        exact hnot ((conflictQuery_ne_nil_iff _ _ _ _).mp hne)
      cases sf with
      | false =>
        rw [postBookings_commit db req cid bid s e cust hs he hc hp hr hse hcf] at hres
        simp at hres
      | true =>
        rw [postBookings_storage db req cid bid s e cust hs he hc hp hr hse hcf] at hres
        simp at hres
    · intro hex
      have hne := (conflictQuery_ne_nil_iff db.bookings (req.room_id.getD "") s e).mpr hex
      rw [postBookings_reject db req cid bid sf s e cust hs he hc hp hr hse hne]
  · intro hsf hnot
    have hcf : conflictQuery db.bookings (req.room_id.getD "") s e = [] := by
      by_contra hne
      exact hnot ((conflictQuery_ne_nil_iff _ _ _ _).mp hne)
    subst hsf
    rw [postBookings_commit db req cid bid s e cust hs he hc hp hr hse hcf]

/-- C3 witness: with a confirmed booking `[10, 20)` stored on room `r1`, an
admission for window `[12, 14)` on `r1` is rejected with `RoomUnavailable`. -/
theorem C3_reject_iff_conflict_witness :
    (postBookings
        (⟨[], [], [⟨"b0", "p1", "r1", "c0", "confirmed", 10, 20, none, "USD"⟩]⟩ : DB Nat)
        ⟨some "p1", some "r1",
          some ⟨none, "Ada", "Lovelace", "ada@example.com", "555-0100"⟩,
          some 12, some 14, none, none, none⟩
        "cust-1" "book-1" false).1 = .error .roomUnavailable :=
  ((C3_reject_iff_conflict
      (⟨[], [], [⟨"b0", "p1", "r1", "c0", "confirmed", 10, 20, none, "USD"⟩]⟩ : DB Nat)
      ⟨some "p1", some "r1",
        some ⟨none, "Ada", "Lovelace", "ada@example.com", "555-0100"⟩,
        some 12, some 14, none, none, none⟩
      "cust-1" "book-1" false 12 14
      ⟨none, "Ada", "Lovelace", "ada@example.com", "555-0100"⟩
      rfl rfl rfl (by decide) (by decide) (by decide)).1).mpr
    ⟨⟨"b0", "p1", "r1", "c0", "confirmed", 10, 20, none, "USD"⟩,
      by decide, rfl, by decide, by decide⟩

/-- C1: the admission transaction preserves the per-room invariant that the
active (`hold` or `confirmed`) bookings of a room are pairwise
non-overlapping: if the invariant holds before an admission, successful or
failed, it holds after. -/
theorem C1_invariant_preserved {D : Type} [LinearOrder D] (db : DB D)
    (req : BookingRequest D) (cid bid : String) (sf : Bool) (room : String)
    (hinv : RoomInvariant db room) :
    RoomInvariant (postBookings db req cid bid sf).2 room := by
  cases hres : (postBookings db req cid bid sf).1 with
  | error err =>
    rw [postBookings_error_state db req cid bid sf err hres]
    exact hinv
  | ok r =>
    obtain ⟨s, e, cust, hs, he, hc, hp, hr, hse, hsf, hcf, hrv, hstate⟩ :=
      postBookings_ok_cases db req cid bid sf r hres
    unfold RoomInvariant activeRoomBookings at hinv ⊢
    rw [hstate]
    dsimp only
    rw [List.filter_append]
    by_cases hpbk : (activeStatus (committedBooking req cust cid bid s e).status
        && ((committedBooking req cust cid bid s e).room_id == room)) = true
    · have hfilter : List.filter
          (fun b => activeStatus b.status && b.room_id == room)
          [committedBooking req cust cid bid s e] =
          [committedBooking req cust cid bid s e] := by
        simp [List.filter, hpbk]
      rw [hfilter]
      apply List.pairwise_append.mpr
      refine ⟨hinv, List.pairwise_singleton _ _, ?_⟩
      intro x hx y hy
      have hy' : y = committedBooking req cust cid bid s e := List.mem_singleton.mp hy
      subst hy'
      rcases List.mem_filter.mp hx with ⟨hxmem, hxpred⟩
      obtain ⟨hxact, hxroom⟩ : activeStatus x.status = true ∧ (x.room_id == room) = true := by
        simpa [Bool.and_eq_true] using hxpred
      have hroom_eq : (committedBooking req cust cid bid s e).room_id = room := by
        obtain ⟨h1, h2⟩ :
            activeStatus (committedBooking req cust cid bid s e).status = true ∧
            ((committedBooking req cust cid bid s e).room_id == room) = true := by
          simpa [Bool.and_eq_true] using hpbk
        exact beq_iff_eq.mp h2
      have hxroom_eq : x.room_id = req.room_id.getD "" := by
        have : x.room_id = room := beq_iff_eq.mp hxroom
        rw [this, ← hroom_eq]
        rfl
      exact conflictQuery_eq_nil_iff db.bookings (req.room_id.getD "") s e |>.mp hcf
        x hxmem hxroom_eq hxact
    · have hfilter : List.filter
          (fun b => activeStatus b.status && b.room_id == room)
          [committedBooking req cust cid bid s e] = [] := by
        simp only [List.filter]
        rw [Bool.not_eq_true] at hpbk
        rw [hpbk]
      rw [hfilter, List.append_nil]
      exact hinv

/-- C1 witness: with a confirmed booking `[10, 20)` on room `r1`, admitting
the touching window `[20, 30)` preserves the invariant for `r1`. -/
theorem C1_invariant_preserved_witness :
    RoomInvariant (postBookings
      (⟨[], [], [⟨"b0", "p1", "r1", "c0", "confirmed", 10, 20, none, "USD"⟩]⟩ : DB Nat)
      ⟨some "p1", some "r1",
        some ⟨none, "Ada", "Lovelace", "ada@example.com", "555-0100"⟩,
        some 20, some 30, none, none, none⟩ "cust-1" "book-1" false).2 "r1" :=
  C1_invariant_preserved
    (⟨[], [], [⟨"b0", "p1", "r1", "c0", "confirmed", 10, 20, none, "USD"⟩]⟩ : DB Nat)
    ⟨some "p1", some "r1",
      some ⟨none, "Ada", "Lovelace", "ada@example.com", "555-0100"⟩,
      some 20, some 30, none, none, none⟩ "cust-1" "book-1" false "r1"
    (by unfold RoomInvariant activeRoomBookings; decide)

/-- C7 counterexample: the availability conflict query filters bookings by
the stored `property_id` column rather than by the room, and the admission
handler never checks that the supplied property matches the room, so a state
with an active confirmed booking on room `r1` recorded under property `p2`
makes `GET /availability` for property `p1` list `r1` even though an active
booking on `r1` overlaps the window `[12, 14)`. -/
theorem C7_counterexample :
    availability (⟨[⟨"r1", "p1", "101", "standard"⟩], [],
        [⟨"bk1", "p2", "r1", "c1", "confirmed", 10, 20, none, "USD"⟩]⟩ : DB Nat)
      ⟨some "p1", some 12, some 14⟩ =
      .ok ⟨12, 14, [⟨"r1", "p1", "101", "standard"⟩]⟩ ∧
    activeStatus "confirmed" = true ∧
    datesOverlap (10 : Nat) 20 12 14 = true :=
  ⟨rfl, rfl, by decide⟩

/-- C7 (amended): for a present property id and window, the availability
query returns exactly the rooms of the property for which no active booking
recorded under that same property id overlaps the window (under the
consistency assumption that every booking carries the property id of its room,
this coincides with the claim); bookings whose status is not `hold` or
`confirmed` (in particular `cancelled`) never block a room. -/
theorem C7_availability_spec {D : Type} [LinearOrder D] (db : DB D)
    (q : AvailabilityQuery D) (pid : String) (f t : D)
    (hp : q.propertyId = some pid) (hf : q.fromDate = some f) (ht : q.toDate = some t)
    (hpne : pid ≠ "") :
    (∃ res, availability db q = .ok res ∧ res.fromDate = f ∧ res.toDate = t ∧
      ∀ r : Room, (r ∈ res.available ↔ r ∈ db.rooms ∧ r.property_id = pid ∧
        ¬ ∃ b ∈ db.bookings, b.property_id = pid ∧ activeStatus b.status = true ∧
            b.room_id = r.id ∧ datesOverlap b.start_date b.end_date f t = true)) ∧
    (∀ bk : Booking D, activeStatus bk.status = false →
      availability ⟨db.rooms, db.customers, db.bookings ++ [bk]⟩ q =
        availability db q) := by
  constructor
  · refine ⟨_, availability_eq_ok db q pid f t hp hf ht hpne, rfl, rfl, ?_⟩
    intro r
    constructor
    · intro hmem
      rcases List.mem_filter.mp hmem with ⟨hmem1, hpred2⟩
      rcases List.mem_filter.mp hmem1 with ⟨hmem0, hpred1⟩
      refine ⟨hmem0, beq_iff_eq.mp hpred1, ?_⟩
      rintro ⟨b, hbmem, hbprop, hbact, hbroom, hbovl⟩
      rw [Bool.not_eq_true', List.any_eq_false] at hpred2
      have hbfilter : b ∈ db.bookings.filter (fun b =>
          b.property_id == pid && sqlOverlaps b.start_date b.end_date f t
            && activeStatus b.status) := by
        apply List.mem_filter.mpr
        refine ⟨hbmem, ?_⟩
        rw [sqlOverlaps_eq_datesOverlap, hbovl, hbact]
        simp [hbprop]
      have := hpred2 b hbfilter
      rw [hbroom] at this
      simp at this
    · rintro ⟨hmem0, hprop, hnot⟩
      apply List.mem_filter.mpr
      refine ⟨List.mem_filter.mpr ⟨hmem0, beq_iff_eq.mpr hprop⟩, ?_⟩
      rw [Bool.not_eq_true', List.any_eq_false]
      intro b hbfilter
      rcases List.mem_filter.mp hbfilter with ⟨hbmem, hbpred⟩
      obtain ⟨⟨hbprop, hbovl⟩, hbact⟩ :
          ((b.property_id == pid) = true ∧
            sqlOverlaps b.start_date b.end_date f t = true) ∧
          activeStatus b.status = true := by
        simpa [Bool.and_eq_true] using hbpred
      by_cases hbroom : b.room_id = r.id
      · exact absurd ⟨b, hbmem, beq_iff_eq.mp hbprop, hbact, hbroom,
          (sqlOverlaps_eq_datesOverlap _ _ _ _).symm.trans hbovl⟩ hnot
      · simp [hbroom]
  · intro bk hbk
    rw [availability_eq_ok db q pid f t hp hf ht hpne,
      availability_eq_ok ⟨db.rooms, db.customers, db.bookings ++ [bk]⟩ q pid f t
        hp hf ht hpne]
    dsimp only
    rw [List.filter_append]
    have hbkfilter : List.filter (fun b =>
        b.property_id == pid && sqlOverlaps b.start_date b.end_date f t
          && activeStatus b.status) [bk] = [] := by
      simp [List.filter, hbk]
    rw [hbkfilter, List.append_nil]

/-- C7 witness: with a consistent state (one confirmed booking `[10, 20)` on
room `r1` of property `p1`), the query for `[12, 14)` excludes `r1`. -/
theorem C7_availability_spec_witness :
    availability (⟨[⟨"r1", "p1", "101", "standard"⟩], [],
        [⟨"bk1", "p1", "r1", "c1", "confirmed", 10, 20, none, "USD"⟩,
         ⟨"bk2", "p1", "r1", "c1", "cancelled", 12, 14, none, "USD"⟩]⟩ : DB Nat)
      ⟨some "p1", some 12, some 14⟩ = .ok ⟨12, 14, []⟩ := by
  have hspec := C7_availability_spec
    (⟨[⟨"r1", "p1", "101", "standard"⟩], [],
      [⟨"bk1", "p1", "r1", "c1", "confirmed", 10, 20, none, "USD"⟩,
       ⟨"bk2", "p1", "r1", "c1", "cancelled", 12, 14, none, "USD"⟩]⟩ : DB Nat)
    ⟨some "p1", some 12, some 14⟩ "p1" 12 14 rfl rfl rfl (by decide)
  obtain ⟨⟨rf, rt, ra⟩, hres, hfrom, hto, hiff⟩ := hspec.1
  have hra : ra = [] := by
    apply List.eq_nil_iff_forall_not_mem.mpr
    intro r hr
    obtain ⟨hmem, _, hnot⟩ := (hiff r).mp hr
    have hreq : r = ⟨"r1", "p1", "101", "standard"⟩ := List.mem_singleton.mp hmem
    exact hnot ⟨⟨"bk1", "p1", "r1", "c1", "confirmed", 10, 20, none, "USD"⟩,
      List.mem_cons_self _ _, rfl, rfl, by rw [hreq], by decide⟩
  have h1 : rf = 12 := hfrom
  have h2 : rt = 14 := hto
  rw [hres, h1, h2, hra]

/-- C8 counterexample: the availability handler never validates
`from < to`.  A request with the inverted window `[2, 1)` is not rejected
with any `InvalidRange` error: the handler runs the storage queries and
answers HTTP 200 (here even excluding the room, whose booking strictly
contains both endpoints, from the inverted window). -/
theorem C8_counterexample :
    ¬ ((2 : Nat) < 1) ∧
    availability (⟨[⟨"r1", "p1", "101", "standard"⟩], [],
        [⟨"bk1", "p1", "r1", "c1", "confirmed", 0, 10, none, "USD"⟩]⟩ : DB Nat)
      ⟨some "p1", some 2, some 1⟩ = .ok ⟨2, 1, []⟩ :=
  ⟨by decide, rfl⟩

/-- C8 (amended): the only validation the availability handler performs is
presence of `propertyId`, `from` and `to` (missing or empty parameters give
the client error); whenever all three are present the query proceeds to the
storage read and returns a success payload for the given window, even when
`from ≥ to`. -/
theorem C8_availability_no_range_check {D : Type} [LinearOrder D] (db : DB D)
    (q : AvailabilityQuery D) :
    ((q.fromDate = none ∨ q.toDate = none ∨ falsyStr q.propertyId = true) →
      availability db q = .error .missingParams) ∧
    (∀ pid f t, q.propertyId = some pid → pid ≠ "" → q.fromDate = some f →
      q.toDate = some t → (availability db q).isOk = true) := by
  constructor
  · intro hmiss
    rcases hf : q.fromDate with _ | f
    · cases ht : q.toDate <;> simp [availability, hf, ht]
    · rcases ht : q.toDate with _ | t
      · simp [availability, hf, ht]
      · rcases hmiss with h | h | h
        · rw [hf] at h; cases h
        · rw [ht] at h; cases h
        · simp [availability, hf, ht, h]
  · intro pid f t hp hpne hf ht
    rw [availability_eq_ok db q pid f t hp hf ht hpne]
    rfl

/-- C8 witness: the inverted window `[2, 1)` with all parameters present
yields a success payload, not an error. -/
theorem C8_availability_no_range_check_witness :
    (availability (⟨[⟨"r1", "p1", "101", "standard"⟩], [], []⟩ : DB Nat)
      ⟨some "p1", some 2, some 1⟩).isOk = true :=
  (C8_availability_no_range_check
    (⟨[⟨"r1", "p1", "101", "standard"⟩], [], []⟩ : DB Nat)
    ⟨some "p1", some 2, some 1⟩).2 "p1" 2 1 rfl (by decide) rfl rfl

/-- C9: on every successful admission the returned payload is the new
booking id with status `hold` when the hold flag is truthy and `confirmed`
otherwise (an absent flag defaults to `confirmed`), and a new customer row
is inserted iff no non-empty customer id was supplied. -/
theorem C9_commit_outputs {D : Type} [LinearOrder D] (db : DB D)
    (req : BookingRequest D) (cid bid : String) (sf : Bool) (r : BookingOk)
    (cust : CustomerInput) (hc : req.customer = some cust)
    (hid : cust.id ≠ some "")
    (h : (postBookings db req cid bid sf).1 = .ok r) :
    r = ⟨bid, if jsBool req.hold then "hold" else "confirmed"⟩ ∧
    (req.hold = none → r.status = "confirmed") ∧
    (cust.id = none → (postBookings db req cid bid sf).2.customers =
      db.customers ++ [insertedCustomer cust cid]) ∧
    (∀ cidv : String, cust.id = some cidv →
      (postBookings db req cid bid sf).2.customers = db.customers) := by
  obtain ⟨s, e, cust2, hs, he, hc2, hp, hr, hse, hsf, hcf, hrv, hstate⟩ :=
    postBookings_ok_cases db req cid bid sf r h
  have hcust : cust2 = cust := by
    rw [hc] at hc2
    exact ((Option.some.injEq _ _).mp hc2).symm
  subst hcust
  refine ⟨hrv, ?_, ?_, ?_⟩
  · intro hh
    rw [hrv]
    simp [jsBool, hh]
  · intro hidnone
    rw [hstate]
    simp [falsyStr, hidnone]
  · intro cidv hcidv
    have hcidne : cidv ≠ "" := by
      intro hcontra
      exact hid (hcontra ▸ hcidv)
    rw [hstate]
    simp [falsyStr, hcidv, hcidne]

/-- C9 witness: an admission with an inline customer (no id) and no hold
flag commits with status `confirmed` and inserts exactly one customer row. -/
theorem C9_commit_outputs_witness :
    (⟨"book-1", "confirmed"⟩ : BookingOk) =
      ⟨"book-1", if jsBool none then "hold" else "confirmed"⟩ ∧
    ((none : Option Bool) = none →
      BookingOk.status ⟨"book-1", "confirmed"⟩ = "confirmed") ∧
    ((none : Option String) = none →
      (postBookings (⟨[], [], []⟩ : DB Nat)
        ⟨some "p1", some "r1",
          some ⟨none, "Ada", "Lovelace", "ada@example.com", "555-0100"⟩,
          some 1, some 2, none, none, none⟩ "cust-1" "book-1" false).2.customers =
        [] ++ [insertedCustomer
          ⟨none, "Ada", "Lovelace", "ada@example.com", "555-0100"⟩ "cust-1"]) ∧
    (∀ cidv : String, (none : Option String) = some cidv →
      (postBookings (⟨[], [], []⟩ : DB Nat)
        ⟨some "p1", some "r1",
          some ⟨none, "Ada", "Lovelace", "ada@example.com", "555-0100"⟩,
          some 1, some 2, none, none, none⟩ "cust-1" "book-1" false).2.customers = []) :=
  C9_commit_outputs (⟨[], [], []⟩ : DB Nat)
    ⟨some "p1", some "r1",
      some ⟨none, "Ada", "Lovelace", "ada@example.com", "555-0100"⟩,
      some 1, some 2, none, none, none⟩ "cust-1" "book-1" false
    ⟨"book-1", "confirmed"⟩
    ⟨none, "Ada", "Lovelace", "ada@example.com", "555-0100"⟩
    rfl (by decide) rfl

/-- C10 counterexample: a supplied monetary amount of `0` is stored as
`null`, not as given, because the insert computes `total_amount || null`
and `0` is falsy in JS. -/
theorem C10_counterexample :
    (postBookings (⟨[], [], []⟩ : DB Nat)
        ⟨some "p1", some "r1",
          some ⟨none, "Ada", "Lovelace", "ada@example.com", "555-0100"⟩,
          some 1, some 2, none, some 0, none⟩ "cust-1" "book-1" false).1 =
      .ok ⟨"book-1", "confirmed"⟩ ∧
    ((postBookings (⟨[], [], []⟩ : DB Nat)
        ⟨some "p1", some "r1",
          some ⟨none, "Ada", "Lovelace", "ada@example.com", "555-0100"⟩,
          some 1, some 2, none, some 0, none⟩ "cust-1" "book-1" false).2.bookings.map
      Booking.total_amount) = [none] :=
  ⟨rfl, rfl⟩

/-- C10 (amended): on a successful admission the stored booking carries
`total_amount || null` and `currency || USD-default`: omitted fields give `null`
and `USD`; a supplied non-zero amount and non-empty currency are stored as
given; but a supplied amount of `0` is stored as `null` and a supplied empty
currency as `USD` (JS truthiness defaults). -/
theorem C10_monetary_defaults {D : Type} [LinearOrder D] (db : DB D)
    (req : BookingRequest D) (cid bid : String) (sf : Bool) (r : BookingOk)
    (s e : D) (cust : CustomerInput)
    (hs : req.start_date = some s) (he : req.end_date = some e)
    (hc : req.customer = some cust)
    (h : (postBookings db req cid bid sf).1 = .ok r) :
    (postBookings db req cid bid sf).2.bookings =
      db.bookings ++ [committedBooking req cust cid bid s e] ∧
    (committedBooking req cust cid bid s e).total_amount =
      jsNumberOrNull req.total_amount ∧
    (committedBooking req cust cid bid s e).currency =
      jsStringOrDefault req.currency "USD" ∧
    (req.total_amount = none → jsNumberOrNull req.total_amount = none) ∧
    (∀ v : Int, req.total_amount = some v → v ≠ 0 →
      jsNumberOrNull req.total_amount = some v) ∧
    (req.total_amount = some 0 → jsNumberOrNull req.total_amount = none) ∧
    (req.currency = none → jsStringOrDefault req.currency "USD" = "USD") ∧
    (∀ c : String, req.currency = some c → c ≠ "" →
      jsStringOrDefault req.currency "USD" = c) := by
  obtain ⟨s2, e2, cust2, hs2, he2, hc2, hp, hr, hse, hsf, hcf, hrv, hstate⟩ :=
    postBookings_ok_cases db req cid bid sf r h
  have hseq : s2 = s := by
    rw [hs] at hs2
    exact ((Option.some.injEq _ _).mp hs2).symm
  have heeq : e2 = e := by
    rw [he] at he2
    exact ((Option.some.injEq _ _).mp he2).symm
  have hcust : cust2 = cust := by
    rw [hc] at hc2
    exact ((Option.some.injEq _ _).mp hc2).symm
  subst hseq; subst heeq; subst hcust
  refine ⟨by rw [hstate], rfl, rfl, ?_, ?_, ?_, ?_, ?_⟩
  · intro hh; rw [hh]; rfl
  · intro v hv hvne
    rw [hv]
    simp [jsNumberOrNull, hvne]
  · intro hh; rw [hh]; rfl
  · intro hh; rw [hh]; rfl
  · intro c hcur hcne
    rw [hcur]
    simp [jsStringOrDefault, hcne]

/-- C10 witness: supplied non-zero amount `5000` and currency `EUR` are
stored as given on a successful admission over the empty state. -/
theorem C10_monetary_defaults_witness :
    (postBookings (⟨[], [], []⟩ : DB Nat)
        ⟨some "p1", some "r1",
          some ⟨none, "Ada", "Lovelace", "ada@example.com", "555-0100"⟩,
          some 1, some 2, none, some 5000, some "EUR"⟩
        "cust-1" "book-1" false).2.bookings =
      [] ++ [committedBooking
        ⟨some "p1", some "r1",
          some ⟨none, "Ada", "Lovelace", "ada@example.com", "555-0100"⟩,
          some 1, some 2, none, some 5000, some "EUR"⟩
        ⟨none, "Ada", "Lovelace", "ada@example.com", "555-0100"⟩ "cust-1" "book-1" 1 2] :=
  (C10_monetary_defaults (⟨[], [], []⟩ : DB Nat)
    ⟨some "p1", some "r1",
      some ⟨none, "Ada", "Lovelace", "ada@example.com", "555-0100"⟩,
      some 1, some 2, none, some 5000, some "EUR"⟩
    "cust-1" "book-1" false ⟨"book-1", "confirmed"⟩ 1 2
    ⟨none, "Ada", "Lovelace", "ada@example.com", "555-0100"⟩
    rfl rfl rfl (by rfl)).1

/-- C2 counterexample: the advisory lock key is `hashtext(room_id)::bigint`,
a 32-bit hash of the room id.  The two distinct UUID-format room ids below
collide (both keys equal 870655530 on a little-endian Postgres), so
admissions against these two *different* rooms serialize on the same
advisory lock: the lock granularity is per hash key, not strictly per-Room,
refuting "transactions on different Rooms proceed fully in parallel". -/
theorem C2_counterexample :
    lockKey "36311789-d4b6-4a73-9398-f4e21181e298" =
      lockKey "4aeb4156-6276-483d-a41f-4ee72e283540" ∧
    ("36311789-d4b6-4a73-9398-f4e21181e298" : String) ≠
      "4aeb4156-6276-483d-a41f-4ee72e283540" :=
  ⟨by decide, by decide⟩

/-- C2 (amended): same-room admissions are serialized by the advisory lock,
so a batch of N valid admissions against one free room runs as a sequence in
lock-grant order: with pairwise-overlapping windows exactly one commits and
the other N-1 fail with `RoomUnavailable`; with pairwise-disjoint windows
all N commit.  The lock key is a function of the Room id alone (never of the
Property, never global), but two different Rooms contend whenever their
`hashtext` keys collide, so "different Rooms proceed fully in parallel"
holds only up to hash collisions (see the counterexample). -/
theorem C2_concurrency {D : Type} [LinearOrder D] (db : DB D) (rid : String)
    (hridne : rid ≠ "") (As : List (Admission D))
    (hg : ∀ a ∈ As, GoodReq rid a)
    (hfree : ∀ a ∈ As, NoConflictWith db rid a) :
    (As ≠ [] → As.Pairwise AdmWindowsOverlap →
      countOk (runAdmissions db As).1 = 1 ∧
      countErr .roomUnavailable (runAdmissions db As).1 = As.length - 1) ∧
    (As.Pairwise AdmWindowsDisjoint →
      countOk (runAdmissions db As).1 = As.length) ∧
    (∀ req1 req2 : BookingRequest D, req1.room_id = req2.room_id →
      lockKey (req1.room_id.getD "") = lockKey (req2.room_id.getD "")) := by
  refine ⟨?_, ?_, ?_⟩
  · intro hne hpair
    cases As with
    | nil => exact absurd rfl hne
    | cons a rest =>
      rw [runAdmissions_overlapping_results rid hridne db a rest hg hfree hpair]
      constructor
      · rw [countOk_ok_cons, countOk_error_map]
      · rw [countErr_ok_cons, countErr_error_map]
        simp
  · intro hpair
    exact runAdmissions_disjoint_all_ok rid hridne As db hg hfree hpair
  · intro req1 req2 hsame
    rw [hsame]

/-- C2 witness: two overlapping admissions (`[10, 20)` and `[15, 25)`) on
room `r1` over the empty state: exactly one commits and one is rejected
with `RoomUnavailable`. -/
theorem C2_concurrency_witness :
    countOk (runAdmissions (⟨[], [], []⟩ : DB Nat) [wAdm1, wAdm2]).1 = 1 ∧
    countErr .roomUnavailable
      (runAdmissions (⟨[], [], []⟩ : DB Nat) [wAdm1, wAdm2]).1 =
      [wAdm1, wAdm2].length - 1 := by
  have hg : ∀ a ∈ [wAdm1, wAdm2], GoodReq "r1" a := by
    intro a ha
    rcases List.mem_cons.mp ha with rfl | ha2
    · exact ⟨rfl, by decide, rfl, 10, 20, rfl, rfl, by decide⟩
    · rcases List.mem_singleton.mp ha2 with rfl
      exact ⟨rfl, by decide, rfl, 15, 25, rfl, rfl, by decide⟩
  have hfree : ∀ a ∈ [wAdm1, wAdm2],
      NoConflictWith (⟨[], [], []⟩ : DB Nat) "r1" a := by
    intro a _ s e _ _
    rfl
  have hpair : ([wAdm1, wAdm2] : List (Admission Nat)).Pairwise AdmWindowsOverlap := by
    apply List.pairwise_cons.mpr
    constructor
    · intro x hx
      rcases List.mem_singleton.mp hx with rfl
      intro s1 e1 s2 e2 h1 h2 h3 h4
      simp only [wAdm1, wAdm2] at h1 h2 h3 h4
      injection h1 with h1; injection h2 with h2
      injection h3 with h3; injection h4 with h4
      subst h1; subst h2; subst h3; subst h4
      decide
    · exact List.pairwise_singleton _ _
  exact (C2_concurrency (⟨[], [], []⟩ : DB Nat) "r1" (by decide) [wAdm1, wAdm2]
    hg hfree).1 (by decide) hpair

end Sohraa
